import Mathlib

/-!
Shallow embedding of `ai-bridge/bridge_enhanced.py` (Surooh AI Provider
Bridge, enhanced variant): performance tracking, cooldown, dynamic
weights, provider selection, task cache, committee aggregation and the
adaptive request handler.

Modelling conventions:
* Wall-clock times and latencies are exact rationals (`ℚ`); Python floats
  carry no role in the claims beyond arithmetic that is exact here.
* Python dicts that are only read through `.get`/`[]` and written by
  key assignment are modelled as association lists with first-match
  lookup; insertion order of `dict` (which Python preserves) is the
  list order.
* `defaultdict` semantics: a missing provider reads as the fresh
  `initStats` record.
* The outbound network is an oracle `String → CallResult` giving, per
  provider, either a `(status, body)` pair or the message of a raised
  exception, together with the observed latency.  One request is
  modelled at a single clock value `now`.
-/

set_option autoImplicit false

namespace Bridge

/-- Per-provider entry of `perf_data["provider_stats"]`:
`{"success": 0, "fail": 0, "latency": deque(maxlen=100)}` plus the
lazily-added `consecutive_fails` key. -/
structure ProviderStats where
  success : Nat
  fail : Nat
  latency : List ℚ
  consecutive_fails : Nat
  deriving Repr, DecidableEq

/-- Fresh stats record produced by the `defaultdict` factory. -/
def initStats : ProviderStats := ⟨0, 0, [], 0⟩

/-- The shared mutable tables of `perf_data` (the `dynamic_weights`
memo is write-only in the code paths the claims touch and is omitted). -/
structure PerfData where
  provider_stats : List (String × ProviderStats)
  provider_cooldown : List (String × ℚ)
  deriving Repr, DecidableEq

/-- Empty `perf_data` at process start. -/
def initPerf : PerfData := ⟨[], []⟩

/-- First-match association-list lookup, Python `dict.get`. -/
def alistGet {α : Type} (l : List (String × α)) (k : String) : Option α :=
  match l.find? (fun e => e.1 == k) with
  | some e => some e.2
  | none => none

/-- Upsert, Python `d[k] = v` (position is irrelevant to `get`;
we put the new binding in front and drop the old one). -/
def alistPut {α : Type} (l : List (String × α)) (k : String) (v : α) :
    List (String × α) :=
  (k, v) :: l.filter (fun e => e.1 != k)

/-- Read of `perf_data["provider_stats"][p]` (`defaultdict`). -/
def getStats (pd : PerfData) (p : String) : ProviderStats :=
  (alistGet pd.provider_stats p).getD initStats

/-- Read of `perf_data["provider_cooldown"].get(p, 0)`. -/
def getCooldown (pd : PerfData) (p : String) : ℚ :=
  (alistGet pd.provider_cooldown p).getD 0

/-- Cooldown length: `COOLDOWN_DURATION = 300`. -/
def COOLDOWN_DURATION : ℚ := 300

/-- Cache TTL: `CACHE_TTL = 3600`. -/
def CACHE_TTL : ℚ := 3600

/-- Model of `is_provider_available(provider)` with the lock elided (its body is a
single guarded read): `time.time() > provider_cooldown.get(provider, 0)`. -/
def is_provider_available (pd : PerfData) (now : ℚ) (p : String) : Bool :=
  now > getCooldown pd p

/-- Append to `deque(maxlen=100)`: when full the oldest (leftmost)
element is evicted. -/
def dequeAppend (w : List ℚ) (x : ℚ) : List ℚ :=
  if w.length < 100 then w ++ [x] else w.tail ++ [x]

/-- Model of `record_provider_result(provider, success, latency)` at wall-clock
`now`: on success increment `success`, append the latency and clear
`consecutive_fails`; on failure increment `fail` and
`consecutive_fails`, and when the latter reaches 3 set
`provider_cooldown[provider] = now + COOLDOWN_DURATION`. -/
def record_provider_result (pd : PerfData) (p : String) (success : Bool)
    (latency : ℚ) (now : ℚ) : PerfData :=
  let stats := getStats pd p
  if success then
    let stats' : ProviderStats :=
      { stats with
          success := stats.success + 1
          latency := dequeAppend stats.latency latency
          consecutive_fails := 0 }
    { pd with provider_stats := alistPut pd.provider_stats p stats' }
  else
    let stats' : ProviderStats :=
      { stats with
          fail := stats.fail + 1
          consecutive_fails := stats.consecutive_fails + 1 }
    let pd' : PerfData :=
      { pd with provider_stats := alistPut pd.provider_stats p stats' }
    if stats'.consecutive_fails ≥ 3 then
      { pd' with
          provider_cooldown :=
            alistPut pd'.provider_cooldown p (now + COOLDOWN_DURATION) }
    else
      pd'

/-! ## Weight engine and provider selection -/

/-- Hard-coded default of `get_dynamic_weights` when the category has no
declared base weights:
`{"llama": 0.4, "mistral": 0.3, "openai": 0.2, "claude": 0.1}`. -/
def defaultWeights : List (String × ℚ) :=
  [("llama", 4/10), ("mistral", 3/10), ("openai", 2/10), ("claude", 1/10)]

/-- Routing policy: per task category, the declared base weight map in
declared (document) order — `ROUTING["routing"]["weights"]`. -/
def baseWeightsOf (routing : List (String × List (String × ℚ)))
    (task_type : String) : List (String × ℚ) :=
  (alistGet routing task_type).getD []

/-- Per-provider body of the `get_dynamic_weights` loop once the provider
passed the availability check: `success_rate` defaults to 1.0 without
observations, `avg_latency` to 2.0 on an empty window,
`latency_penalty = max(0.5, min(1.5, 3.0/avg_latency))`, and the
adjusted weight `base*rate*penalty` is floored at 0.01. -/
def adjustedWeight (pd : PerfData) (p : String) (base_weight : ℚ) : ℚ :=
  let stats := getStats pd p
  let total : ℚ := stats.success + stats.fail
  let success_rate : ℚ := if total > 0 then (stats.success : ℚ) / total else 1
  let avg_latency : ℚ :=
    if stats.latency.length > 0 then stats.latency.sum / stats.latency.length
    else 2
  let latency_penalty : ℚ := max (1/2) (min (3/2) (3 / avg_latency))
  max (1/100) (base_weight * success_rate * latency_penalty)

/-- Sum of the values of a weight map, Python `sum(d.values())`. -/
def sumWeights (w : List (String × ℚ)) : ℚ :=
  (w.map Prod.snd).sum

/-- Logical (lock-elided) `get_dynamic_weights(task_type)`: empty base
map → the fixed default; otherwise each declared provider maps to 0.0
when unavailable and to its floored adjusted weight otherwise, and the
result is normalized when its total is positive. -/
def get_dynamic_weights (routing : List (String × List (String × ℚ)))
    (pd : PerfData) (now : ℚ) (task_type : String) : List (String × ℚ) :=
  let base := baseWeightsOf routing task_type
  if base.isEmpty then defaultWeights
  else
    let dynamic := base.map (fun e =>
      if ¬ is_provider_available pd now e.1 then (e.1, (0 : ℚ))
      else (e.1, adjustedWeight pd e.1 e.2))
    let total_weight := sumWeights dynamic
    if total_weight > 0 then dynamic.map (fun e => (e.1, e.2 / total_weight))
    else dynamic

/-- Python builtin `max(seq, key=key)` over a non-empty sequence: the
FIRST element attaining the maximal key wins (a later element replaces
the current best only when its key is strictly greater). -/
def pyMax {α β : Type} [LinearOrder β] (key : α → β) (best : α) :
    List α → α
  | [] => best
  | x :: xs => pyMax key (if key x > key best then x else best) xs

/-- Python `max(items, key=lambda x: x[1])`. -/
def firstMaxBySnd (hd : String × ℚ) (l : List (String × ℚ)) : String × ℚ :=
  pyMax Prod.snd hd l

/-- Selection logic of `pick_provider` applied to an already computed
weight map (the code recomputes availability per candidate). -/
def pick_from_weights (providers : List String) (pd : PerfData) (now : ℚ)
    (weights : List (String × ℚ)) : String :=
  if weights.isEmpty ∨ sumWeights weights = 0 then
    match providers.find? (fun p => is_provider_available pd now p) with
    | some p => p
    | none => "openai"
  else
    let available := weights.filter (fun e => is_provider_available pd now e.1)
    match available with
    | [] => "openai"
    | a :: rest => (firstMaxBySnd a rest).1

/-- Logical `pick_provider(task_type)`: dynamic weights, then the
fallback/argmax selection; `providers` is `CONFIG["providers"].keys()`
in declared order. -/
def pick_provider (providers : List String)
    (routing : List (String × List (String × ℚ))) (pd : PerfData)
    (now : ℚ) (task_type : String) : String :=
  pick_from_weights providers pd now (get_dynamic_weights routing pd now task_type)

/-! ## Classification, fingerprint, substring matching -/

/-- Python `needle in hay` on strings, on the character lists. -/
def containsSubL (needle : List Char) : List Char → Bool
  | [] => needle.isEmpty
  | c :: t => needle.isPrefixOf (c :: t) || containsSubL needle t

/-- Python `needle in hay` on strings. -/
def containsSub (hay needle : String) : Bool :=
  containsSubL needle.data hay.data

/-- Model of `classify_task(prompt)`: empty prompt → "analysis"; otherwise the
first category (in declared order) one of whose keywords occurs
case-insensitively in the prompt; no match → "analysis". -/
def classify_task (classify_map : List (String × List String))
    (prompt : String) : String :=
  if prompt = "" then "analysis"
  else
    let prompt_lower := prompt.toLower
    match classify_map.find? (fun e =>
        e.2.any (fun kw => containsSub prompt_lower kw.toLower)) with
    | some e => e.1
    | none => "analysis"

/-- First 500 characters, Python `prompt[:500]`. -/
def take500 (s : String) : String :=
  ⟨s.data.take 500⟩

/-- Model of `task_fingerprint(prompt, task_type)`, which hashes
`f"{task_type}:{prompt[:500]}"` with SHA-256.  The digest is a fixed
deterministic injection of its preimage, so the model uses the preimage
string itself as the fingerprint: two fingerprints are equal exactly
when the hashed contents are. -/
def task_fingerprint (prompt : String) (task_type : String) : String :=
  task_type ++ ":" ++ take500 prompt

/-! ## Committee aggregation -/

/-- One committee datum `(m, code, body)` collected in invocation order. -/
structure Attempt where
  member : String
  code : Nat
  body : String
  deriving Repr, DecidableEq

/-- Body of the synthetic failure tuple
`f'{{"error":"{str(e)}"}}'` for a raised exception `e`. -/
def errBody (e : String) : String :=
  "\x7b\"error\":\"" ++ e ++ "\"\x7d"

/-- Default of the all-failed reduction, `'{"error":"no outputs"}'`. -/
def noOutputsBody : String :=
  "\x7b\"error\":\"no outputs\"\x7d"

/-- Python `max(strings, key=len)`: the FIRST string of maximal length
wins. -/
def firstLongest (best : String) (l : List String) : String :=
  pyMax String.length best l

/-- Reduction of `committee` over the collected outputs: the body of the
first status-200 attempt, else the longest body (default body when
there are no outputs at all); the returned status is the literal 200 in
both branches. -/
def committee_select (outputs : List Attempt) : Nat × String :=
  match (outputs.filter (fun a => a.code == 200)).map Attempt.body with
  | w :: _ => (200, w)
  | [] =>
    match outputs.map Attempt.body with
    | [] => (200, noOutputsBody)
    | b :: bs => (200, firstLongest b bs)

/-- Outcome of one outbound adapter call as seen by `provider_call`:
either the `(status, body)` pair or the message of the raised
exception, plus the latency `time.time() - start`. -/
structure CallResult where
  outcome : Except String (Nat × String)
  latency : ℚ

/-- Model of `provider_call(name, ...)`: performs the adapter call (the oracle)
and records the result — success iff status 200, any exception recorded
as a failure — then returns the outcome, re-raising exceptions. -/
def provider_call (oracle : String → CallResult) (pd : PerfData) (now : ℚ)
    (name : String) : Except String (Nat × String) × PerfData :=
  let r := oracle name
  match r.outcome with
  | .ok cb => (.ok cb, record_provider_result pd name (cb.1 == 200) r.latency now)
  | .error e => (.error e, record_provider_result pd name false r.latency now)

/-- Loop of `committee`: call every member in order, converting a raised
exception into the synthetic attempt `(m, 0, errBody e)`. -/
def committeeLoop (oracle : String → CallResult) (now : ℚ) :
    List String → PerfData → List Attempt × PerfData
  | [], pd => ([], pd)
  | m :: ms, pd =>
    match provider_call oracle pd now m with
    | (.ok cb, pd') =>
      let r := committeeLoop oracle now ms pd'
      (⟨m, cb.1, cb.2⟩ :: r.1, r.2)
    | (.error e, pd') =>
      let r := committeeLoop oracle now ms pd'
      (⟨m, 0, errBody e⟩ :: r.1, r.2)

/-- Model of `committee(messages, members)`: restrict to available members (force
all when none are available), call them in order, reduce with
`committee_select`.  Also returns the updated perf state and the list
of members actually invoked. -/
def committee (oracle : String → CallResult) (pd : PerfData) (now : ℚ)
    (members : List String) : (Nat × String) × PerfData × List String :=
  let avail := members.filter (is_provider_available pd now)
  let ms := if avail.isEmpty then members else avail
  let r := committeeLoop oracle now ms pd
  (committee_select r.1, r.2, ms)

/-! ## The adaptive request handler -/

/-- One chat message. -/
structure Msg where
  role : String
  content : String
  deriving Repr, DecidableEq

/-- Request body of `POST /v1/chat/completions` (fields the routing
logic reads; `task_id` defaults to `""`). -/
structure Request where
  messages : List Msg
  task_id : String
  deriving Repr, DecidableEq

/-- Static configuration: the declared provider order
(`CONFIG["providers"].keys()`), the routing weight maps, the
classification keyword map, and
`CONFIG["thresholds"]["sensitive_tasks"]`. -/
structure Config where
  providers : List String
  routing : List (String × List (String × ℚ))
  classify_map : List (String × List String)
  sensitive_tasks : List String

/-- Shared mutable state threaded through one request, plus a log of the
providers invoked (for counting adapter invocations). -/
structure SysState where
  pd : PerfData
  cache : List (String × (String × ℚ))
  calls : List String
  deriving DecidableEq

/-- Initial state: empty tables, no calls made. -/
def initState : SysState := ⟨initPerf, [], []⟩

/-- Prompt extraction:
`" ".join(m["content"] for m in messages if m["role"] in ("user","system"))`. -/
def prompt_of (messages : List Msg) : String :=
  String.intercalate " "
    ((messages.filter (fun m => m.role == "user" || m.role == "system")).map
      Msg.content)

/-- Cache read in `do_POST`: the entry is returned only when
`now - timestamp < CACHE_TTL`; an expired entry is left in place. -/
def cache_lookup (cache : List (String × (String × ℚ))) (fp : String)
    (now : ℚ) : Option String :=
  match alistGet cache fp with
  | some c => if now - c.2 < CACHE_TTL then some c.1 else none
  | none => none

/-- Sensitivity test of `do_POST`:
`any(s in (body.get("task_id","") + prompt) for s in sensitive_tasks)` —
the identifier and the prompt are concatenated without a separator. -/
def is_sensitive (sensitive_tasks : List String) (task_id prompt : String) :
    Bool :=
  sensitive_tasks.any (fun s => containsSub (task_id ++ prompt) s)

/-- Adaptive-mode `do_POST` on `/v1/chat/completions` (modes `hybrid` and
`adaptive` share this path): classify, check the cache, pick a
provider, call it; on a returned response cache the body
unconditionally and escalate to `committee` when the status is not 200
or the request is sensitive; on a raised exception fall back to
`committee` over the remaining available providers, or answer 500 when
none remain.  Observability calls (`record_metrics`,
`broadcast_insight`) are fire-and-forget and not modelled.  Returns the
`(status, body)` passed to `_send` plus the updated state. -/
def handle_chat (cfg : Config) (oracle : String → CallResult) (st : SysState)
    (now : ℚ) (req : Request) : (Nat × String) × SysState :=
  let prompt := prompt_of req.messages
  let kind := classify_task cfg.classify_map prompt
  let fp := task_fingerprint prompt kind
  match cache_lookup st.cache fp now with
  | some result => ((200, result), st)
  | none =>
    let provider := pick_provider cfg.providers cfg.routing st.pd now kind
    match provider_call oracle st.pd now provider with
    | (.ok cb, pd1) =>
      let cache1 := alistPut st.cache fp (cb.2, now)
      if cb.1 != 200 || is_sensitive cfg.sensitive_tasks req.task_id prompt then
        let members0 := cfg.providers.filter (is_provider_available pd1 now)
        let members := if members0.isEmpty then cfg.providers else members0
        let r := committee oracle pd1 now members
        (r.1, ⟨r.2.1, cache1, st.calls ++ provider :: r.2.2⟩)
      else
        ((cb.1, cb.2), ⟨pd1, cache1, st.calls ++ [provider]⟩)
    | (.error e, pd1) =>
      let members := cfg.providers.filter (fun p =>
        is_provider_available pd1 now p && p != provider)
      if members.isEmpty then
        ((500, errBody e), ⟨pd1, st.cache, st.calls ++ [provider]⟩)
      else
        let r := committee oracle pd1 now members
        (r.1, ⟨r.2.1, st.cache, st.calls ++ provider :: r.2.2⟩)

/-! ## Lock-aware model

`perf_lock` is a plain (non-reentrant) `threading.Lock`.
`get_dynamic_weights` and the `/health` handler call
`is_provider_available` — whose body opens `with perf_lock:` — while
already holding `perf_lock`.  Re-acquisition of a held non-reentrant
lock blocks forever; `none` models a call that never returns. -/

/-- Acquire the non-reentrant lock: succeeds from the free state;
re-acquisition by the current holder never returns. -/
def acquire : Bool → Option Unit
  | false => some ()
  | true => none

/-- Model of `is_provider_available(provider)` with its lock section
explicit; `lockHeld` is whether the calling thread already holds
`perf_lock`. -/
def is_provider_available_locked (pd : PerfData) (now : ℚ) (p : String)
    (lockHeld : Bool) : Option Bool :=
  match acquire lockHeld with
  | none => none
  | some _ => some (is_provider_available pd now p)

/-- Per-provider loop of `get_dynamic_weights`, run while the caller
holds `perf_lock` (`lockHeld = true` at every call site in the code). -/
def dynLoopLocked (pd : PerfData) (now : ℚ) (lockHeld : Bool) :
    List (String × ℚ) → Option (List (String × ℚ))
  | [] => some []
  | e :: rest =>
    match is_provider_available_locked pd now e.1 lockHeld with
    | none => none
    | some avail =>
      let w := if ¬ avail then (e.1, (0 : ℚ)) else (e.1, adjustedWeight pd e.1 e.2)
      match dynLoopLocked pd now lockHeld rest with
      | none => none
      | some ws => some (w :: ws)

/-- Model of `get_dynamic_weights(task_type)` with the lock explicit: the whole
body runs inside `with perf_lock:` acquired from the free state, so the
loop's availability checks run with `lockHeld = true`. -/
def get_dynamic_weights_locked (routing : List (String × List (String × ℚ)))
    (pd : PerfData) (now : ℚ) (task_type : String) :
    Option (List (String × ℚ)) :=
  match acquire false with
  | none => none
  | some _ =>
    let base := baseWeightsOf routing task_type
    if base.isEmpty then some defaultWeights
    else
      match dynLoopLocked pd now true base with
      | none => none
      | some dynamic =>
        let total := sumWeights dynamic
        some (if total > 0 then dynamic.map (fun e => (e.1, e.2 / total))
          else dynamic)

/-- Model of `pick_provider(task_type)` with the lock explicit: after
`get_dynamic_weights` returns, `perf_lock` is free again, so the
remaining selection logic is the pure `pick_from_weights`. -/
def pick_provider_locked (providers : List String)
    (routing : List (String × List (String × ℚ))) (pd : PerfData)
    (now : ℚ) (task_type : String) : Option String :=
  match get_dynamic_weights_locked routing pd now task_type with
  | none => none
  | some weights => some (pick_from_weights providers pd now weights)

/-- Loop of the `/health` handler: it holds `perf_lock` and calls
`is_provider_available(p)` for every configured provider. -/
def healthLoopLocked (pd : PerfData) (now : ℚ) (lockHeld : Bool) :
    List String → Option (List (String × (Bool × ProviderStats)))
  | [] => some []
  | p :: ps =>
    match is_provider_available_locked pd now p lockHeld with
    | none => none
    | some a =>
      match healthLoopLocked pd now lockHeld ps with
      | none => none
      | some r => some ((p, (a, getStats pd p)) :: r)

/-- Model of `GET /health` with the lock explicit: the provider-status map is
built inside `with perf_lock:`, calling `is_provider_available` per
provider under the held lock. -/
def handle_health_locked (providers : List String) (pd : PerfData)
    (now : ℚ) : Option (List (String × (Bool × ProviderStats))) :=
  match acquire false with
  | none => none
  | some _ => healthLoopLocked pd now true providers

/-- Adaptive `do_POST` with the lock explicit: the cache check runs in
its own (non-nested) `with perf_lock:` section, then `pick_provider`
runs; if provider selection returns, the lock is free and the rest of
the request proceeds as in the pure `handle_chat`. -/
def handle_chat_locked (cfg : Config) (oracle : String → CallResult)
    (st : SysState) (now : ℚ) (req : Request) :
    Option ((Nat × String) × SysState) :=
  let prompt := prompt_of req.messages
  let kind := classify_task cfg.classify_map prompt
  let fp := task_fingerprint prompt kind
  match acquire false with
  | none => none
  | some _ =>
    match cache_lookup st.cache fp now with
    | some result => some ((200, result), st)
    | none =>
      match pick_provider_locked cfg.providers cfg.routing st.pd now kind with
      | none => none
      | some _ => some (handle_chat cfg oracle st now req)

/-! ## Named subexpressions of the handler (for readable statements) -/

/-- The fingerprint `do_POST` computes for a request. -/
def reqFingerprint (cfg : Config) (req : Request) : String :=
  task_fingerprint (prompt_of req.messages)
    (classify_task cfg.classify_map (prompt_of req.messages))

/-- The provider `do_POST` selects for a request. -/
def primaryProvider (cfg : Config) (st : SysState) (now : ℚ) (req : Request) :
    String :=
  pick_provider cfg.providers cfg.routing st.pd now
    (classify_task cfg.classify_map (prompt_of req.messages))

/-- The member list of the escalation committee: all currently available
providers, or all providers when none are available. -/
def escMembers (cfg : Config) (pd1 : PerfData) (now : ℚ) : List String :=
  let members0 := cfg.providers.filter (is_provider_available pd1 now)
  if members0.isEmpty then cfg.providers else members0

/-- The perf state right after the primary call of a request returned a
response with status `code` (the recorded success flag is
`code == 200`). -/
def pdAfterPrimary (cfg : Config) (oracle : String → CallResult)
    (st : SysState) (now : ℚ) (req : Request) (code : Nat) : PerfData :=
  record_provider_result st.pd (primaryProvider cfg st now req)
    (code == 200) (oracle (primaryProvider cfg st now req)).latency now

/-- The escalation committee run of a request whose primary call
returned status `code`. -/
def escCommittee (cfg : Config) (oracle : String → CallResult)
    (st : SysState) (now : ℚ) (req : Request) (code : Nat) :
    (Nat × String) × PerfData × List String :=
  committee oracle (pdAfterPrimary cfg oracle st now req code) now
    (escMembers cfg (pdAfterPrimary cfg oracle st now req code) now)

/-- Three consecutive recorded failures for one provider. -/
def threeFails (pd : PerfData) (p : String) (l1 l2 l3 t1 t2 t3 : ℚ) :
    PerfData :=
  record_provider_result (record_provider_result
    (record_provider_result pd p false l1 t1) p false l2 t2) p false l3 t3

/-! ## Concrete scenarios -/

/-- Oracle responding per provider from a fixed table; providers outside
the table raise. -/
def oracleOf (entries : List (String × (Nat × String))) : String → CallResult :=
  fun m =>
    match alistGet entries m with
    | some cb => ⟨Except.ok cb, 1⟩
    | none => ⟨Except.error "unreachable", 1⟩

/-- Routing policy declaring one category with one provider. -/
def routing0 : List (String × List (String × ℚ)) :=
  [("analysis", [("llama", 1/2)])]

/-- Perf state in which provider "llama" cools down until t = 100. -/
def pd0cooled : PerfData := ⟨[], [("llama", 100)]⟩

/-- Single-provider configuration with no declared routing weights, no
classification keywords and no sensitive markers. -/
def cfgLlama : Config := ⟨["llama"], [], [], []⟩

/-- Single-provider configuration over the declared category of
`routing0`. -/
def cfgDeclared : Config := ⟨["llama"], routing0, [], []⟩

/-- Minimal request: one user message, no task id. -/
def reqHi : Request := ⟨[⟨"user", "hi"⟩], ""⟩

/-- Oracle for the committee winner-selection scenario of the spec:
A succeeds with "x", B fails with an empty body, C succeeds with "yy". -/
def oracleC6 : String → CallResult :=
  oracleOf [("A", (200, "x")), ("B", (500, "")), ("C", (200, "yy"))]

/-- Oracle answering status 201 (a response, but not status-OK). -/
def oracle201 : String → CallResult :=
  oracleOf [("llama", (201, "body201"))]

/-- Oracle answering status 500. -/
def oracle500 : String → CallResult :=
  oracleOf [("llama", (500, "fail-body"))]

/-- Two-provider configuration with a sensitive marker "secret" and
declared weights favouring "llama" for category "analysis". -/
def cfg9 : Config :=
  ⟨["mistral", "llama"],
    [("analysis", [("llama", 9/10), ("mistral", 1/10)])], [], ["secret"]⟩

/-- Request whose task id "se" and prompt "cret plans" contain the
marker "secret" only across the concatenation boundary. -/
def req9 : Request := ⟨[⟨"user", "cret plans"⟩], "se"⟩

/-- Oracle where both providers succeed with distinct bodies. -/
def oracle9 : String → CallResult :=
  oracleOf [("llama", (200, "llama-body")), ("mistral", (200, "mistral-body"))]

/-- Oracle answering status 200 for the cache scenario. -/
def oracle200 : String → CallResult :=
  oracleOf [("llama", (200, "cached-answer"))]

/-! ## Helper lemmas: association lists -/

theorem alistGet_put_self {α : Type} (l : List (String × α)) (k : String)
    (v : α) : alistGet (alistPut l k v) k = some v := by
  simp [alistGet, alistPut, List.find?_cons]

theorem find?_filter_of_imp {α : Type} (l : List α) (p q : α → Bool)
    (h : ∀ x, p x = true → q x = true) :
    (l.filter q).find? p = l.find? p := by
  induction l with
  | nil => rfl
  | cons a t ih =>
    by_cases hq : q a = true
    · by_cases hp : p a = true <;>
        simp [List.filter_cons, hq, List.find?_cons, hp, ih]
    · have hp : ¬ p a = true := fun hpa => hq (h a hpa)
      simp [List.filter_cons, hq, List.find?_cons, hp, ih]

theorem alistGet_put_ne {α : Type} (l : List (String × α)) (k k' : String)
    (v : α) (h : k' ≠ k) : alistGet (alistPut l k v) k' = alistGet l k' := by
  have hbeq : ((k, v).1 == k') = false := by
    simp [BEq.beq]
    exact fun hh => h hh.symm
  unfold alistGet alistPut
  rw [List.find?_cons, hbeq]
  rw [find?_filter_of_imp]
  intro x hx
  simp only [bne_iff_ne, ne_eq, decide_eq_true_eq]
  intro hxk
  rw [hxk] at hx
  simp [BEq.beq] at hx
  exact h hx.symm

/-! ## Helper lemmas: record_provider_result -/

theorem getStats_record_success (pd : PerfData) (p : String) (lat now : ℚ) :
    getStats (record_provider_result pd p true lat now) p =
      { getStats pd p with
          success := (getStats pd p).success + 1
          latency := dequeAppend (getStats pd p).latency lat
          consecutive_fails := 0 } := by
  simp [record_provider_result, getStats, alistGet_put_self]

theorem getStats_record_fail (pd : PerfData) (p : String) (lat now : ℚ) :
    getStats (record_provider_result pd p false lat now) p =
      { getStats pd p with
          fail := (getStats pd p).fail + 1
          consecutive_fails := (getStats pd p).consecutive_fails + 1 } := by
  simp only [record_provider_result]
  split
  · simp_all
  · split <;> simp [getStats, alistGet_put_self]

theorem getCooldown_record_success (pd : PerfData) (p q : String)
    (lat now : ℚ) :
    getCooldown (record_provider_result pd p true lat now) q =
      getCooldown pd q := by
  simp [record_provider_result, getCooldown]

theorem getCooldown_record_fail_lt (pd : PerfData) (p q : String)
    (lat now : ℚ) (h : (getStats pd p).consecutive_fails + 1 < 3) :
    getCooldown (record_provider_result pd p false lat now) q =
      getCooldown pd q := by
  simp only [record_provider_result]
  split
  · simp_all
  · split
    · next hc => exact absurd hc (by omega)
    · simp [getCooldown]

theorem getCooldown_record_fail_ge (pd : PerfData) (p : String)
    (lat now : ℚ) (h : 3 ≤ (getStats pd p).consecutive_fails + 1) :
    getCooldown (record_provider_result pd p false lat now) p =
      now + COOLDOWN_DURATION := by
  have hm : 2 ≤ (getStats pd p).consecutive_fails := by omega
  simp [record_provider_result, hm, getCooldown, alistGet_put_self]

/-! ## Helper lemmas: pyMax (first maximum wins) -/

theorem pyMax_mem {α β : Type} [LinearOrder β] (key : α → β) :
    ∀ (l : List α) (b : α), pyMax key b l ∈ b :: l := by
  intro l
  induction l with
  | nil => intro b; exact List.mem_singleton.mpr rfl
  | cons x xs ih =>
    intro b
    rw [pyMax]
    rcases List.mem_cons.mp (ih (if key x > key b then x else b)) with h1 | h1
    · rw [h1]
      split <;> simp
    · exact List.mem_cons_of_mem _ (List.mem_cons_of_mem _ h1)

theorem pyMax_le {α β : Type} [LinearOrder β] (key : α → β) :
    ∀ (l : List α) (b : α), ∀ y ∈ b :: l, key y ≤ key (pyMax key b l) := by
  intro l
  induction l with
  | nil =>
    intro b y hy
    rw [List.mem_singleton] at hy
    rw [hy, pyMax]
  | cons x xs ih =>
    intro b y hy
    rw [pyMax]
    have hb : key b ≤ key (if key x > key b then x else b) := by
      split
      · next hx => exact le_of_lt hx
      · exact le_refl _
    have hx2 : key x ≤ key (if key x > key b then x else b) := by
      split
      · exact le_refl _
      · next hx => exact le_of_not_lt hx
    have htop := ih (if key x > key b then x else b) _ (List.mem_cons_self _ _)
    rcases List.mem_cons.mp hy with h1 | h1
    · exact le_trans (h1 ▸ hb) htop
    rcases List.mem_cons.mp h1 with h2 | h2
    · exact le_trans (h2 ▸ hx2) htop
    · exact ih _ _ (List.mem_cons_of_mem _ h2)

theorem pyMax_eq_or_gt {α β : Type} [LinearOrder β] (key : α → β) :
    ∀ (l : List α) (b : α), pyMax key b l = b ∨ key b < key (pyMax key b l) := by
  intro l
  induction l with
  | nil => intro b; exact Or.inl rfl
  | cons x xs ih =>
    intro b
    rw [pyMax]
    by_cases hx : key x > key b
    · rw [if_pos hx]
      exact Or.inr (lt_of_lt_of_le hx
        (pyMax_le key xs x _ (List.mem_cons_self _ _)))
    · rw [if_neg hx]
      exact ih b

theorem pyMax_find {α β : Type} [LinearOrder β] (key : α → β) :
    ∀ (l : List α) (b : α),
      (b :: l).find? (fun y => decide (key y = key (pyMax key b l))) =
        some (pyMax key b l) := by
  intro l
  induction l with
  | nil =>
    intro b
    rw [pyMax]
    exact List.find?_cons_of_pos _ (by simp)
  | cons x xs ih =>
    intro b
    rw [pyMax]
    by_cases hx : key x > key b
    · rw [if_pos hx]
      have hlt : key b < key (pyMax key x xs) :=
        lt_of_lt_of_le hx (pyMax_le key xs x _ (List.mem_cons_self _ _))
      rw [List.find?_cons_of_neg _ (by simpa using ne_of_lt hlt)]
      exact ih x
    · rw [if_neg hx]
      rcases pyMax_eq_or_gt key xs b with heq | hgt
      · rw [heq]
        exact List.find?_cons_of_pos _ (by simp)
      · have hbne : key b ≠ key (pyMax key b xs) := ne_of_lt hgt
        have hxne : key x ≠ key (pyMax key b xs) :=
          ne_of_lt (lt_of_le_of_lt (le_of_not_lt hx) hgt)
        have h2 := ih b
        rw [List.find?_cons_of_neg _ (by simpa using hbne)] at h2
        rw [List.find?_cons_of_neg _ (by simpa using hbne),
          List.find?_cons_of_neg _ (by simpa using hxne)]
        exact h2

/-! ## Helper lemmas: weight sums -/

theorem sum_map_div (l : List ℚ) (c : ℚ) :
    (l.map (fun x => x / c)).sum = l.sum / c := by
  induction l with
  | nil => simp
  | cons x xs ih => simp [ih, add_div]

theorem sumWeights_cons (e : String × ℚ) (t : List (String × ℚ)) :
    sumWeights (e :: t) = e.2 + sumWeights t := by
  simp [sumWeights]

theorem sumWeights_map_div (w : List (String × ℚ)) (c : ℚ) :
    sumWeights (w.map (fun e => (e.1, e.2 / c))) = sumWeights w / c := by
  induction w with
  | nil => simp [sumWeights]
  | cons e t ih =>
    rw [List.map_cons, sumWeights_cons, sumWeights_cons, ih, add_div]

theorem sumWeights_zero_entries (w : List (String × ℚ)) :
    sumWeights (w.map (fun e => (e.1, (0 : ℚ)))) = 0 := by
  induction w with
  | nil => simp [sumWeights]
  | cons e t ih => rw [List.map_cons, sumWeights_cons, ih, add_zero]

theorem sum_pos_of_mem (l : List ℚ) (x : ℚ) (hx : x ∈ l) (hxpos : 0 < x)
    (hnn : ∀ y ∈ l, 0 ≤ y) : 0 < l.sum := by
  induction l with
  | nil => cases hx
  | cons a t ih =>
    rw [List.sum_cons]
    rcases List.mem_cons.mp hx with h | h
    · have ht : 0 ≤ t.sum :=
        List.sum_nonneg (fun y hy => hnn y (List.mem_cons_of_mem _ hy))
      rw [← h]
      linarith
    · have ha : 0 ≤ a := hnn a (List.mem_cons_self _ _)
      have := ih h (fun y hy => hnn y (List.mem_cons_of_mem _ hy))
      linarith

/-! ## Helper lemmas: the dynamic-weight vector -/

theorem adjustedWeight_ge (pd : PerfData) (p : String) (bw : ℚ) :
    1/100 ≤ adjustedWeight pd p bw :=
  le_max_left _ _

theorem dynamic_entries_nonneg (pd : PerfData) (now : ℚ)
    (base : List (String × ℚ)) :
    ∀ y ∈ (base.map (fun e =>
        if ¬ is_provider_available pd now e.1 then (e.1, (0 : ℚ))
        else (e.1, adjustedWeight pd e.1 e.2))).map Prod.snd, 0 ≤ y := by
  intro y hy
  rw [List.map_map, List.mem_map] at hy
  obtain ⟨e, _, he⟩ := hy
  simp only [Function.comp] at he
  rw [← he]
  split
  · exact le_refl 0
  · exact le_trans (by norm_num) (adjustedWeight_ge pd e.1 e.2)

theorem get_dynamic_weights_sum_one (routing : List (String × List (String × ℚ)))
    (pd : PerfData) (now : ℚ) (cat : String) (p : String) (w : ℚ)
    (hmem : (p, w) ∈ baseWeightsOf routing cat)
    (hav : is_provider_available pd now p = true) :
    sumWeights (get_dynamic_weights routing pd now cat) = 1 := by
  have hbase : (baseWeightsOf routing cat).isEmpty = false := by
    rcases h : baseWeightsOf routing cat with _ | ⟨a, t⟩
    · rw [h] at hmem
      exact absurd hmem (List.not_mem_nil _)
    · rfl
  rw [get_dynamic_weights]
  rw [hbase]
  simp only [Bool.false_eq_true, if_false]
  have hpair : (p, adjustedWeight pd p w) ∈ (baseWeightsOf routing cat).map
      (fun e => if ¬ is_provider_available pd now e.1 then (e.1, (0 : ℚ))
        else (e.1, adjustedWeight pd e.1 e.2)) := by
    have := List.mem_map_of_mem (fun e =>
      if ¬ is_provider_available pd now e.1 then (e.1, (0 : ℚ))
      else (e.1, adjustedWeight pd e.1 e.2)) hmem
    simpa [hav] using this
  have hx : adjustedWeight pd p w ∈ ((baseWeightsOf routing cat).map
      (fun e => if ¬ is_provider_available pd now e.1 then (e.1, (0 : ℚ))
        else (e.1, adjustedWeight pd e.1 e.2))).map Prod.snd :=
    List.mem_map_of_mem Prod.snd hpair
  have hpos : 0 < sumWeights ((baseWeightsOf routing cat).map
      (fun e => if ¬ is_provider_available pd now e.1 then (e.1, (0 : ℚ))
        else (e.1, adjustedWeight pd e.1 e.2))) := by
    refine sum_pos_of_mem _ (adjustedWeight pd p w) hx ?_
      (dynamic_entries_nonneg pd now (baseWeightsOf routing cat))
    exact lt_of_lt_of_le (by norm_num) (adjustedWeight_ge pd p w)
  rw [if_pos hpos, sumWeights_map_div]
  exact div_self (ne_of_gt hpos)

theorem get_dynamic_weights_all_cooled
    (routing : List (String × List (String × ℚ))) (pd : PerfData) (now : ℚ)
    (cat : String) (hbase : baseWeightsOf routing cat ≠ [])
    (hall : ∀ e ∈ baseWeightsOf routing cat,
      is_provider_available pd now e.1 = false) :
    get_dynamic_weights routing pd now cat =
      (baseWeightsOf routing cat).map (fun e => (e.1, (0 : ℚ))) := by
  have hbase' : (baseWeightsOf routing cat).isEmpty = false := by
    rcases h : baseWeightsOf routing cat with _ | _
    · exact absurd h hbase
    · rfl
  rw [get_dynamic_weights]
  rw [hbase']
  simp only [Bool.false_eq_true, if_false]
  have hmap : (baseWeightsOf routing cat).map
      (fun e => if ¬ is_provider_available pd now e.1 then (e.1, (0 : ℚ))
        else (e.1, adjustedWeight pd e.1 e.2)) =
      (baseWeightsOf routing cat).map (fun e => (e.1, (0 : ℚ))) := by
    refine List.map_congr_left ?_
    intro e he
    simp [hall e he]
  rw [hmap, sumWeights_zero_entries]
  simp

/-! ## Helper lemmas: committee selection -/

theorem filter_eq_cons_of_find? {α : Type} (p : α → Bool) :
    ∀ (l : List α) (a : α), l.find? p = some a → ∃ t, l.filter p = a :: t := by
  intro l
  induction l with
  | nil => intro a h; cases h
  | cons b bs ih =>
    intro a h
    by_cases hb : p b = true
    · rw [List.find?_cons_of_pos _ hb] at h
      injection h with h
      subst h
      exact ⟨bs.filter p, by rw [List.filter_cons_of_pos hb]⟩
    · rw [List.find?_cons_of_neg _ hb] at h
      obtain ⟨t, ht⟩ := ih a h
      exact ⟨t, by rw [List.filter_cons_of_neg hb, ht]⟩

theorem committee_select_first_success (outputs : List Attempt) (a : Attempt)
    (h : outputs.find? (fun x => x.code == 200) = some a) :
    committee_select outputs = (200, a.body) := by
  obtain ⟨t, ht⟩ := filter_eq_cons_of_find? _ outputs a h
  simp [committee_select, ht]

theorem committee_select_all_fail (o : Attempt) (os : List Attempt)
    (h : (o :: os).find? (fun x => x.code == 200) = none) :
    committee_select (o :: os) =
      (200, firstLongest o.body (os.map Attempt.body)) := by
  have hfil : (o :: os).filter (fun x => x.code == 200) = [] :=
    List.filter_eq_nil_iff.mpr (List.find?_eq_none.mp h)
  simp [committee_select, hfil, firstLongest]

theorem committee_select_code (outputs : List Attempt) :
    (committee_select outputs).1 = 200 := by
  rw [committee_select]
  split
  · rfl
  · split <;> rfl

theorem committee_code (oracle : String → CallResult) (pd : PerfData)
    (now : ℚ) (members : List String) :
    (committee oracle pd now members).1.1 = 200 := by
  rw [committee]
  exact committee_select_code _

/-! ## Helper lemmas: the adaptive handler -/

theorem handle_chat_hit (cfg : Config) (oracle : String → CallResult)
    (st : SysState) (now : ℚ) (req : Request) (r : String)
    (hhit : cache_lookup st.cache (reqFingerprint cfg req) now = some r) :
    handle_chat cfg oracle st now req = ((200, r), st) := by
  have hhit' := hhit
  simp only [reqFingerprint] at hhit'
  simp [handle_chat, hhit']

theorem handle_chat_ok_pass (cfg : Config) (oracle : String → CallResult)
    (st : SysState) (now : ℚ) (req : Request) (out : String)
    (hmiss : cache_lookup st.cache (reqFingerprint cfg req) now = none)
    (hok : (oracle (primaryProvider cfg st now req)).outcome =
      Except.ok (200, out))
    (hsens : is_sensitive cfg.sensitive_tasks req.task_id
      (prompt_of req.messages) = false) :
    handle_chat cfg oracle st now req =
      ((200, out),
        ⟨pdAfterPrimary cfg oracle st now req 200,
          alistPut st.cache (reqFingerprint cfg req) (out, now),
          st.calls ++ [primaryProvider cfg st now req]⟩) := by
  have hmiss' := hmiss
  have hok' := hok
  simp only [reqFingerprint, primaryProvider] at hmiss' hok'
  simp [handle_chat, provider_call, hmiss', hok', hsens,
    pdAfterPrimary, reqFingerprint, primaryProvider]

theorem handle_chat_ok_escalate (cfg : Config)
    (oracle : String → CallResult) (st : SysState) (now : ℚ)
    (req : Request) (code : Nat) (out : String)
    (hmiss : cache_lookup st.cache (reqFingerprint cfg req) now = none)
    (hok : (oracle (primaryProvider cfg st now req)).outcome =
      Except.ok (code, out))
    (hesc : code ≠ 200 ∨ is_sensitive cfg.sensitive_tasks req.task_id
      (prompt_of req.messages) = true) :
    handle_chat cfg oracle st now req =
      ((escCommittee cfg oracle st now req code).1,
        ⟨(escCommittee cfg oracle st now req code).2.1,
          alistPut st.cache (reqFingerprint cfg req) (out, now),
          st.calls ++ primaryProvider cfg st now req ::
            (escCommittee cfg oracle st now req code).2.2⟩) := by
  have hmiss' := hmiss
  have hok' := hok
  simp only [reqFingerprint, primaryProvider] at hmiss' hok'
  have hcond : ((code != 200) || is_sensitive cfg.sensitive_tasks
      req.task_id (prompt_of req.messages)) = true := by
    rcases hesc with hc | hs
    · simp [bne_iff_ne, hc]
    · simp [hs]
  simp [handle_chat, provider_call, hmiss', hok', hcond, escCommittee,
    pdAfterPrimary, escMembers, reqFingerprint, primaryProvider]

theorem handle_chat_err_cache (cfg : Config) (oracle : String → CallResult)
    (st : SysState) (now : ℚ) (req : Request) (e : String)
    (hmiss : cache_lookup st.cache (reqFingerprint cfg req) now = none)
    (herr : (oracle (primaryProvider cfg st now req)).outcome =
      Except.error e) :
    (handle_chat cfg oracle st now req).2.cache = st.cache := by
  have hmiss' := hmiss
  have herr' := herr
  simp only [reqFingerprint, primaryProvider] at hmiss' herr'
  simp only [handle_chat, provider_call, hmiss', herr']
  split <;> rfl

theorem handle_chat_ok_cache (cfg : Config) (oracle : String → CallResult)
    (st : SysState) (now : ℚ) (req : Request) (code : Nat) (out : String)
    (hmiss : cache_lookup st.cache (reqFingerprint cfg req) now = none)
    (hok : (oracle (primaryProvider cfg st now req)).outcome =
      Except.ok (code, out)) :
    (handle_chat cfg oracle st now req).2.cache =
      alistPut st.cache (reqFingerprint cfg req) (out, now) := by
  have hmiss' := hmiss
  have hok' := hok
  simp only [reqFingerprint, primaryProvider] at hmiss' hok'
  simp only [handle_chat, provider_call, hmiss', hok', reqFingerprint]
  split <;> rfl

theorem cache_lookup_fresh (cache : List (String × (String × ℚ)))
    (fp : String) (now : ℚ) (r : String)
    (h : cache_lookup cache fp now = some r) :
    ∃ ts, alistGet cache fp = some (r, ts) ∧ now - ts < CACHE_TTL := by
  rw [cache_lookup] at h
  rcases hget : alistGet cache fp with _ | c
  · rw [hget] at h
    cases h
  · rw [hget] at h
    have h2 : (if now - c.2 < CACHE_TTL then some c.1 else none) =
        some r := h
    by_cases httl : now - c.2 < CACHE_TTL
    · rw [if_pos httl] at h2
      injection h2 with h2
      exact ⟨c.2, by rw [← h2], httl⟩
    · rw [if_neg httl] at h2
      cases h2

theorem reqFingerprint_congr (cfg : Config) (req req2 : Request)
    (h : prompt_of req2.messages = prompt_of req.messages) :
    reqFingerprint cfg req2 = reqFingerprint cfg req := by
  rw [reqFingerprint, reqFingerprint, h]

theorem handle_chat_status (cfg : Config) (oracle : String → CallResult)
    (st : SysState) (now : ℚ) (req : Request) :
    (handle_chat cfg oracle st now req).1.1 = 200 ∨
      (handle_chat cfg oracle st now req).1.1 = 500 := by
  simp only [handle_chat]
  split
  · exact Or.inl rfl
  · split
    · next cb pd1 heq =>
      split
      · exact Or.inl (committee_code _ _ _ _)
      · next hcond =>
        have h2 : cb.1 = 200 ∧
            is_sensitive cfg.sensitive_tasks req.task_id
              (prompt_of req.messages) = false := by
          simpa using hcond
        exact Or.inl h2.1
    · next e pd1 heq =>
      split
      · exact Or.inr rfl
      · exact Or.inl (committee_code _ _ _ _)

theorem primary_cfgLlama (now : ℚ) (h : 0 < now) :
    primaryProvider cfgLlama initState now reqHi = "llama" := by
  norm_num [primaryProvider, pick_provider, pick_from_weights,
    get_dynamic_weights, baseWeightsOf, cfgLlama, alistGet, defaultWeights,
    sumWeights, adjustedWeight, getStats, initStats, initPerf, initState,
    is_provider_available, getCooldown, firstMaxBySnd, pyMax, classify_task,
    prompt_of, reqHi, h]

theorem primary_cfg9 : primaryProvider cfg9 initState 1 req9 = "llama" := by
  norm_num [primaryProvider, pick_provider, pick_from_weights,
    get_dynamic_weights, baseWeightsOf, cfg9, alistGet, sumWeights,
    adjustedWeight, getStats, initStats, initPerf, initState,
    is_provider_available, getCooldown, firstMaxBySnd, pyMax,
    classify_task, prompt_of, req9]

/-! # Claims -/

/-- C8, counterexample: recording a FAILURE with latency 7 leaves the
latency window empty — the latency is not appended to the bounded
window on every call, refuting "appends the latency to the bounded
window on every call (success and failure alike)". -/
theorem C8_counterexample :
    (getStats (record_provider_result initPerf "openai" false 7 100)
        "openai").latency = []
    ∧ ¬ ((7 : ℚ) ∈ (getStats (record_provider_result initPerf "openai"
        false 7 100) "openai").latency)
    ∧ (getStats (record_provider_result initPerf "openai" false 7 100)
        "openai").fail = 1 := by
  refine ⟨by decide, by decide, by decide⟩

/-- C8, amended: `record_provider_result`, under the provider's
exclusive section, increments the success or failure counter on every
call and on failure increments the consecutive-failure counter; the
latency is appended to the bounded window ONLY on success — a failed
call leaves the window untouched.  A raised (timed-out) call is
recorded by `provider_call` exactly like a non-success status:
`success = (code == 200)` on a response and `false` on an exception. -/
theorem C8_record_result (pd : PerfData) (p : String) (lat now : ℚ)
    (oracle : String → CallResult) :
    getStats (record_provider_result pd p true lat now) p =
      { getStats pd p with
          success := (getStats pd p).success + 1
          latency := dequeAppend (getStats pd p).latency lat
          consecutive_fails := 0 }
    ∧ getStats (record_provider_result pd p false lat now) p =
      { getStats pd p with
          fail := (getStats pd p).fail + 1
          latency := (getStats pd p).latency
          consecutive_fails := (getStats pd p).consecutive_fails + 1 }
    ∧ (provider_call oracle pd now p).2 =
        record_provider_result pd p
          (match (oracle p).outcome with
            | Except.ok cb => cb.1 == 200
            | Except.error _ => false)
          (oracle p).latency now := by
  refine ⟨getStats_record_success pd p lat now,
    getStats_record_fail pd p lat now, ?_⟩
  rw [provider_call]
  rcases h : (oracle p).outcome with e | cb
  · simp [h]
  · simp [h]

/-- C5 (confirmed): starting from a zero consecutive-failure count,
after the 3rd consecutive recorded failure (at time `t3`) the provider
is unavailable exactly while `t ≤ t3 + 300` and available again for
every `t > t3 + 300`, with no further events (availability is a pure
wall-clock comparison with the stored deadline `t3 + 300`); the
consecutive-failure counter becomes 0 only through a success and grows
by one on every failure. -/
theorem C5_cooldown_exact (pd : PerfData) (p : String)
    (l1 l2 l3 t1 t2 t3 : ℚ)
    (h0 : (getStats pd p).consecutive_fails = 0) :
    getCooldown (threeFails pd p l1 l2 l3 t1 t2 t3) p =
      t3 + COOLDOWN_DURATION
    ∧ (∀ t : ℚ,
        is_provider_available (threeFails pd p l1 l2 l3 t1 t2 t3) t p =
          decide (t > t3 + COOLDOWN_DURATION))
    ∧ (∀ (q : PerfData) (lat now : ℚ),
        (getStats (record_provider_result q p true lat now)
          p).consecutive_fails = 0)
    ∧ (∀ (q : PerfData) (lat now : ℚ),
        (getStats (record_provider_result q p false lat now)
          p).consecutive_fails = (getStats q p).consecutive_fails + 1) := by
  have h1 : (getStats (record_provider_result pd p false l1 t1)
      p).consecutive_fails = 1 := by
    rw [getStats_record_fail]
    simp [h0]
  have h2 : (getStats (record_provider_result (record_provider_result pd p
      false l1 t1) p false l2 t2) p).consecutive_fails = 2 := by
    rw [getStats_record_fail]
    simp [h1]
  have hcd : getCooldown (threeFails pd p l1 l2 l3 t1 t2 t3) p =
      t3 + COOLDOWN_DURATION := by
    rw [threeFails]
    exact getCooldown_record_fail_ge _ p l3 t3 (by omega)
  refine ⟨hcd, ?_, ?_, ?_⟩
  · intro t
    rw [is_provider_available, hcd]
  · intro q lat n
    rw [getStats_record_success]
  · intro q lat n
    rw [getStats_record_fail]

/-- C5, witness: three failures of "openai" at times 10, 20, 30 leave
it unavailable at t = 330 (= 30 + 300) and available at t = 331. -/
theorem C5_witness :
    (getStats initPerf "openai").consecutive_fails = 0
    ∧ is_provider_available (threeFails initPerf "openai" 1 1 1 10 20 30)
        330 "openai" = false
    ∧ is_provider_available (threeFails initPerf "openai" 1 1 1 10 20 30)
        331 "openai" = true := by
  have h := C5_cooldown_exact initPerf "openai" 1 1 1 10 20 30 (by decide)
  refine ⟨by decide, ?_, ?_⟩
  · rw [h.2.1 330]
    norm_num [COOLDOWN_DURATION]
  · rw [h.2.1 331]
    norm_num [COOLDOWN_DURATION]

/-- C6 (confirmed): the committee reduction picks the body of the first
status-200 attempt in invocation order; when no attempt succeeded it
picks a body of maximal length, the FIRST such body in invocation
order; and over the invocation order A ↦ (200, "x"), B ↦ (500, ""),
C ↦ (200, "yy") the committee returns body "x", not "yy". -/
theorem C6_committee_selection :
    (∀ (outputs : List Attempt) (a : Attempt),
        outputs.find? (fun x => x.code == 200) = some a →
        committee_select outputs = (200, a.body))
    ∧ (∀ (o : Attempt) (os : List Attempt),
        (o :: os).find? (fun x => x.code == 200) = none →
        (committee_select (o :: os)).2 ∈ (o :: os).map Attempt.body
        ∧ (∀ b ∈ (o :: os).map Attempt.body,
            b.length ≤ (committee_select (o :: os)).2.length)
        ∧ ((o :: os).map Attempt.body).find?
            (fun b => decide (b.length =
              (committee_select (o :: os)).2.length)) =
            some (committee_select (o :: os)).2)
    ∧ (committee oracleC6 initPerf 1 ["A", "B", "C"]).1 = (200, "x") := by
  refine ⟨fun outputs a h => committee_select_first_success outputs a h,
    ?_, by decide⟩
  intro o os h
  rw [committee_select_all_fail o os h]
  refine ⟨?_, ?_, ?_⟩
  · have hm := pyMax_mem String.length (os.map Attempt.body) o.body
    simpa [firstLongest] using hm
  · intro b hb
    have hle := pyMax_le String.length (os.map Attempt.body) o.body b
      (by simpa using hb)
    simpa [firstLongest] using hle
  · have hf := pyMax_find String.length (os.map Attempt.body) o.body
    simpa [firstLongest] using hf

/-- C6, witness: the selection applied to the spec's example attempts
returns the first success "x". -/
theorem C6_witness :
    (([⟨"A", 200, "x"⟩, ⟨"B", 500, ""⟩, ⟨"C", 200, "yy"⟩] :
        List Attempt).find? (fun x => x.code == 200) = some ⟨"A", 200, "x"⟩)
    ∧ committee_select [⟨"A", 200, "x"⟩, ⟨"B", 500, ""⟩, ⟨"C", 200, "yy"⟩] =
        (200, "x") := by
  exact ⟨by decide,
    C6_committee_selection.1 _ ⟨"A", 200, "x"⟩ (by decide)⟩

/-! ## C1: the deadlock -/

theorem dynLoopLocked_held_none (pd : PerfData) (now : ℚ)
    (e : String × ℚ) (rest : List (String × ℚ)) :
    dynLoopLocked pd now true (e :: rest) = none := rfl

theorem get_dynamic_weights_locked_none
    (routing : List (String × List (String × ℚ))) (pd : PerfData)
    (now : ℚ) (cat : String) (h : baseWeightsOf routing cat ≠ []) :
    get_dynamic_weights_locked routing pd now cat = none := by
  obtain ⟨e, rest, hbase⟩ := List.exists_cons_of_ne_nil h
  rw [get_dynamic_weights_locked]
  simp [acquire, hbase, dynLoopLocked_held_none]

theorem pick_provider_locked_none (providers : List String)
    (routing : List (String × List (String × ℚ))) (pd : PerfData)
    (now : ℚ) (cat : String) (h : baseWeightsOf routing cat ≠ []) :
    pick_provider_locked providers routing pd now cat = none := by
  rw [pick_provider_locked, get_dynamic_weights_locked_none routing pd now cat h]

theorem handle_health_locked_none (providers : List String) (pd : PerfData)
    (now : ℚ) (h : providers ≠ []) :
    handle_health_locked providers pd now = none := by
  obtain ⟨p, ps, hp⟩ := List.exists_cons_of_ne_nil h
  rw [handle_health_locked]
  simp [acquire, hp, healthLoopLocked, is_provider_available_locked]

theorem handle_chat_locked_none (cfg : Config) (oracle : String → CallResult)
    (st : SysState) (now : ℚ) (req : Request) (hcache : st.cache = [])
    (hbase : baseWeightsOf cfg.routing (classify_task cfg.classify_map
      (prompt_of req.messages)) ≠ []) :
    handle_chat_locked cfg oracle st now req = none := by
  rw [handle_chat_locked]
  simp [acquire, cache_lookup, hcache, alistGet,
    pick_provider_locked_none cfg.providers cfg.routing st.pd now _ hbase]

/-- C1 (confirmed): `perf_lock` is non-reentrant, and
`get_dynamic_weights` calls `is_provider_available` — which opens
`with perf_lock:` — while already holding `perf_lock`.  Hence for every
task category with a non-empty declared base weight map
`get_dynamic_weights` never returns (modelled as `none`), and so
`pick_provider` never returns; the `/health` handler self-deadlocks
whenever at least one provider is configured; and every adaptive-mode
request over a declared category (starting from an empty cache) never
terminates. -/
theorem C1_lock_deadlock :
    (∀ (routing : List (String × List (String × ℚ))) (pd : PerfData)
        (now : ℚ) (cat : String), baseWeightsOf routing cat ≠ [] →
        get_dynamic_weights_locked routing pd now cat = none)
    ∧ (∀ (providers : List String)
        (routing : List (String × List (String × ℚ))) (pd : PerfData)
        (now : ℚ) (cat : String), baseWeightsOf routing cat ≠ [] →
        pick_provider_locked providers routing pd now cat = none)
    ∧ (∀ (providers : List String) (pd : PerfData) (now : ℚ),
        providers ≠ [] → handle_health_locked providers pd now = none)
    ∧ (∀ (cfg : Config) (oracle : String → CallResult) (st : SysState)
        (now : ℚ) (req : Request), st.cache = [] →
        baseWeightsOf cfg.routing (classify_task cfg.classify_map
          (prompt_of req.messages)) ≠ [] →
        handle_chat_locked cfg oracle st now req = none) :=
  ⟨fun routing pd now cat h =>
      get_dynamic_weights_locked_none routing pd now cat h,
    fun providers routing pd now cat h =>
      pick_provider_locked_none providers routing pd now cat h,
    fun providers pd now h => handle_health_locked_none providers pd now h,
    fun cfg oracle st now req hc hb =>
      handle_chat_locked_none cfg oracle st now req hc hb⟩

/-- C1, witness: with the one-category policy `routing0` and the single
provider "llama", the weight computation, provider selection, health
handler and a whole adaptive request all deadlock. -/
theorem C1_witness :
    baseWeightsOf routing0 "analysis" ≠ []
    ∧ get_dynamic_weights_locked routing0 initPerf 5 "analysis" = none
    ∧ pick_provider_locked ["llama"] routing0 initPerf 5 "analysis" = none
    ∧ handle_health_locked ["llama"] initPerf 5 = none
    ∧ handle_chat_locked cfgDeclared (oracleOf []) initState 5 reqHi =
        none := by
  refine ⟨by decide,
    C1_lock_deadlock.1 routing0 initPerf 5 "analysis" (by decide),
    C1_lock_deadlock.2.1 ["llama"] routing0 initPerf 5 "analysis" (by decide),
    C1_lock_deadlock.2.2.1 ["llama"] initPerf 5 (by decide),
    C1_lock_deadlock.2.2.2 cfgDeclared (oracleOf []) initState 5 reqHi
      (by decide) (by decide)⟩

/-- C2, counterexample: with policy `routing0` (sole declared provider
"llama") and "llama" cooling down until t = 100, at t = 5 every
declared provider is unavailable, yet `get_dynamic_weights` returns the
NON-empty all-zero vector `[("llama", 0)]` — not the empty vector the
claim states. -/
theorem C2_counterexample :
    (∀ e ∈ baseWeightsOf routing0 "analysis",
        is_provider_available pd0cooled 5 e.1 = false)
    ∧ get_dynamic_weights routing0 pd0cooled 5 "analysis" = [("llama", 0)]
    ∧ get_dynamic_weights routing0 pd0cooled 5 "analysis" ≠ [] := by
  have hval : get_dynamic_weights routing0 pd0cooled 5 "analysis" =
      [("llama", 0)] := by
    norm_num [get_dynamic_weights, baseWeightsOf, routing0, alistGet,
      is_provider_available, getCooldown, pd0cooled, sumWeights]
  refine ⟨by decide, hval, by rw [hval]; simp⟩

/-- C2, amended: over exact rational arithmetic the returned weight
vector sums to exactly 1 (hence within 1e-6 of 1.0) whenever at least
one provider with a declared base weight is available; when every such
provider is cooling down the function returns the all-zero vector with
one entry per declared provider in declared order — a non-empty vector,
not the empty one. -/
theorem C2_weights_normalization :
    (∀ (routing : List (String × List (String × ℚ))) (pd : PerfData)
        (now : ℚ) (cat : String) (p : String) (w : ℚ),
        (p, w) ∈ baseWeightsOf routing cat →
        is_provider_available pd now p = true →
        sumWeights (get_dynamic_weights routing pd now cat) = 1)
    ∧ (∀ (routing : List (String × List (String × ℚ))) (pd : PerfData)
        (now : ℚ) (cat : String), baseWeightsOf routing cat ≠ [] →
        (∀ e ∈ baseWeightsOf routing cat,
          is_provider_available pd now e.1 = false) →
        get_dynamic_weights routing pd now cat =
          (baseWeightsOf routing cat).map (fun e => (e.1, (0 : ℚ)))) :=
  ⟨fun routing pd now cat p w hm ha =>
      get_dynamic_weights_sum_one routing pd now cat p w hm ha,
    fun routing pd now cat hb ha =>
      get_dynamic_weights_all_cooled routing pd now cat hb ha⟩

/-- C2, witness: with only "llama" declared (base weight 1/2) and
available, the dynamic weights sum to exactly 1. -/
theorem C2_witness :
    ("llama", (1 : ℚ)/2) ∈ baseWeightsOf routing0 "analysis"
    ∧ is_provider_available initPerf 1 "llama" = true
    ∧ sumWeights (get_dynamic_weights routing0 initPerf 1 "analysis") =
        1 := by
  have hmem : ("llama", (1 : ℚ)/2) ∈ baseWeightsOf routing0 "analysis" := by
    norm_num [baseWeightsOf, routing0, alistGet]
  exact ⟨hmem, by decide,
    C2_weights_normalization.1 routing0 initPerf 1 "analysis" "llama"
      (1/2) hmem (by decide)⟩

/-- C4, counterexample: with the sole configured provider "llama"
cooling down, `pick_provider` does NOT force-select from the full
provider list in declared order (which would give "llama"); it returns
the hard-coded ultimate fallback "openai", a provider that is not even
in the configured list. -/
theorem C4_counterexample :
    (∀ p ∈ (["llama"] : List String),
        is_provider_available pd0cooled 5 p = false)
    ∧ pick_provider ["llama"] routing0 pd0cooled 5 "analysis" = "openai"
    ∧ ¬ ("openai" ∈ (["llama"] : List String)) := by
  refine ⟨by decide, ?_, by decide⟩
  norm_num [pick_provider, pick_from_weights, get_dynamic_weights,
    baseWeightsOf, routing0, alistGet, is_provider_available, getCooldown,
    pd0cooled, sumWeights]

/-- C4, amended: when the computed weight vector is empty or sums to 0,
`pick_provider` falls back to the first AVAILABLE provider in the
declared configuration order, and to the hard-coded "openai" (not the
declared list) when none is available; otherwise it keeps the available
weight entries in declared order and picks the first entry of maximal
weight — ties are broken by the declared order, and the chosen entry's
weight bounds every available entry's weight. -/
theorem C4_pick_provider_spec :
    (∀ (providers : List String) (pd : PerfData) (now : ℚ)
        (weights : List (String × ℚ)) (p : String),
        (weights.isEmpty = true ∨ sumWeights weights = 0) →
        providers.find? (fun q => is_provider_available pd now q) = some p →
        pick_from_weights providers pd now weights = p)
    ∧ (∀ (providers : List String) (pd : PerfData) (now : ℚ)
        (weights : List (String × ℚ)),
        (weights.isEmpty = true ∨ sumWeights weights = 0) →
        providers.find? (fun q => is_provider_available pd now q) = none →
        pick_from_weights providers pd now weights = "openai")
    ∧ (∀ (providers : List String) (pd : PerfData) (now : ℚ)
        (weights : List (String × ℚ)),
        ¬(weights.isEmpty = true ∨ sumWeights weights = 0) →
        weights.filter (fun e => is_provider_available pd now e.1) = [] →
        pick_from_weights providers pd now weights = "openai")
    ∧ (∀ (providers : List String) (pd : PerfData) (now : ℚ)
        (weights : List (String × ℚ)) (a : String × ℚ)
        (rest : List (String × ℚ)),
        ¬(weights.isEmpty = true ∨ sumWeights weights = 0) →
        weights.filter (fun e => is_provider_available pd now e.1) =
          a :: rest →
        pick_from_weights providers pd now weights = (firstMaxBySnd a rest).1
        ∧ firstMaxBySnd a rest ∈ a :: rest
        ∧ (∀ e ∈ a :: rest, e.2 ≤ (firstMaxBySnd a rest).2)
        ∧ (a :: rest).find?
            (fun e => decide (e.2 = (firstMaxBySnd a rest).2)) =
            some (firstMaxBySnd a rest))
    ∧ (∀ (providers : List String)
        (routing : List (String × List (String × ℚ))) (pd : PerfData)
        (now : ℚ) (cat : String),
        pick_provider providers routing pd now cat =
          pick_from_weights providers pd now
            (get_dynamic_weights routing pd now cat)) := by
  refine ⟨?_, ?_, ?_, ?_, fun providers routing pd now cat => rfl⟩
  · intro providers pd now weights p h hfind
    rw [pick_from_weights, if_pos h, hfind]
  · intro providers pd now weights h hfind
    rw [pick_from_weights, if_pos h, hfind]
  · intro providers pd now weights h hfil
    rw [pick_from_weights, if_neg h, hfil]
  · intro providers pd now weights a rest h hfil
    refine ⟨by rw [pick_from_weights, if_neg h, hfil], ?_, ?_, ?_⟩
    · have hm := pyMax_mem Prod.snd rest a
      simpa [firstMaxBySnd] using hm
    · intro e he
      have hle := pyMax_le Prod.snd rest a e he
      simpa [firstMaxBySnd] using hle
    · have hf := pyMax_find Prod.snd rest a
      simpa [firstMaxBySnd] using hf

/-- C4, witness: two available entries with equal weight 1/2 — the
selection returns the FIRST one in declared order ("a"). -/
theorem C4_witness :
    ¬((([("a", (1:ℚ)/2), ("b", (1:ℚ)/2)] : List (String × ℚ)).isEmpty =
        true) ∨ sumWeights [("a", (1:ℚ)/2), ("b", (1:ℚ)/2)] = 0)
    ∧ ([("a", (1:ℚ)/2), ("b", (1:ℚ)/2)] : List (String × ℚ)).filter
        (fun e => is_provider_available initPerf 1 e.1) =
        [("a", (1:ℚ)/2), ("b", (1:ℚ)/2)]
    ∧ pick_from_weights ["llama"] initPerf 1
        [("a", (1:ℚ)/2), ("b", (1:ℚ)/2)] = "a" := by
  have hcond : ¬((([("a", (1:ℚ)/2), ("b", (1:ℚ)/2)] :
      List (String × ℚ)).isEmpty = true) ∨
      sumWeights [("a", (1:ℚ)/2), ("b", (1:ℚ)/2)] = 0) := by
    norm_num [sumWeights]
  have hfil : ([("a", (1:ℚ)/2), ("b", (1:ℚ)/2)] :
      List (String × ℚ)).filter
      (fun e => is_provider_available initPerf 1 e.1) =
      [("a", (1:ℚ)/2), ("b", (1:ℚ)/2)] := by
    norm_num [is_provider_available, getCooldown, initPerf, alistGet]
  refine ⟨hcond, hfil, ?_⟩
  have h := (C4_pick_provider_spec.2.2.2.1 ["llama"] initPerf 1
    [("a", (1:ℚ)/2), ("b", (1:ℚ)/2)] ("a", (1:ℚ)/2) [("b", (1:ℚ)/2)]
    hcond hfil).1
  rw [h]
  norm_num [firstMaxBySnd, pyMax]

/-- C3, counterexample: the primary call returns status 201 — a
response, but NOT status-OK by the code's own success predicate
(`code == 200`) — and the body is cached anyway, refuting "stored if
and only if the primary provider call returned success status". -/
theorem C3_counterexample :
    (oracle201 "llama").outcome = Except.ok (201, "body201")
    ∧ (201 : Nat) ≠ 200
    ∧ alistGet (handle_chat cfgLlama oracle201 initState 1 reqHi).2.cache
        "analysis:hi" = some ("body201", 1) := by
  refine ⟨rfl, by decide, ?_⟩
  have hok : (oracle201 (primaryProvider cfgLlama initState 1
      reqHi)).outcome = Except.ok (201, "body201") := by
    rw [primary_cfgLlama 1 (by norm_num)]
    rfl
  rw [handle_chat_ok_cache cfgLlama oracle201 initState 1 reqHi 201
    "body201" (by decide) hok]
  have hfp : reqFingerprint cfgLlama reqHi = "analysis:hi" := by decide
  rw [hfp]
  decide

/-- C3, amended: on the adaptive path the response body is stored in
the task cache whenever the primary call returns a response — for ANY
status code, not only status-OK (escalation may later replace the
outgoing response but the cached body stays the primary's); nothing is
stored when the call raises; no other cache entry is ever removed
(no proactive eviction); and a lookup returns an entry only while its
age is below the TTL (expiry is checked lazily on lookup). -/
theorem C3_cache_on_any_response :
    (∀ (cfg : Config) (oracle : String → CallResult) (st : SysState)
        (now : ℚ) (req : Request) (code : Nat) (out : String),
        cache_lookup st.cache (reqFingerprint cfg req) now = none →
        (oracle (primaryProvider cfg st now req)).outcome =
          Except.ok (code, out) →
        (handle_chat cfg oracle st now req).2.cache =
          alistPut st.cache (reqFingerprint cfg req) (out, now))
    ∧ (∀ (cfg : Config) (oracle : String → CallResult) (st : SysState)
        (now : ℚ) (req : Request) (e : String),
        cache_lookup st.cache (reqFingerprint cfg req) now = none →
        (oracle (primaryProvider cfg st now req)).outcome =
          Except.error e →
        (handle_chat cfg oracle st now req).2.cache = st.cache)
    ∧ (∀ (cfg : Config) (oracle : String → CallResult) (st : SysState)
        (now : ℚ) (req : Request) (k : String),
        k ≠ reqFingerprint cfg req →
        alistGet (handle_chat cfg oracle st now req).2.cache k =
          alistGet st.cache k)
    ∧ (∀ (cache : List (String × (String × ℚ))) (fp : String)
        (now : ℚ) (r : String), cache_lookup cache fp now = some r →
        ∃ ts, alistGet cache fp = some (r, ts) ∧ now - ts < CACHE_TTL) := by
  refine ⟨fun cfg oracle st now req code out hm ho =>
      handle_chat_ok_cache cfg oracle st now req code out hm ho,
    fun cfg oracle st now req e hm he =>
      handle_chat_err_cache cfg oracle st now req e hm he,
    ?_, fun cache fp now r h => cache_lookup_fresh cache fp now r h⟩
  intro cfg oracle st now req k hk
  have hk' : k ≠ task_fingerprint (prompt_of req.messages)
      (classify_task cfg.classify_map (prompt_of req.messages)) := by
    simpa [reqFingerprint] using hk
  simp only [handle_chat]
  split
  · rfl
  · split
    · split
      · exact alistGet_put_ne st.cache _ k _ hk'
      · exact alistGet_put_ne st.cache _ k _ hk'
    · split
      · rfl
      · rfl

/-- C3, witness: a successful 200 response is cached at the request's
fingerprint. -/
theorem C3_witness :
    cache_lookup initState.cache (reqFingerprint cfgLlama reqHi) 1 = none
    ∧ (handle_chat cfgLlama oracle200 initState 1 reqHi).2.cache =
        alistPut initState.cache (reqFingerprint cfgLlama reqHi)
          ("cached-answer", 1) := by
  refine ⟨by decide, ?_⟩
  have hok : (oracle200 (primaryProvider cfgLlama initState 1
      reqHi)).outcome = Except.ok (200, "cached-answer") := by
    rw [primary_cfgLlama 1 (by norm_num)]
    rfl
  exact C3_cache_on_any_response.1 cfgLlama oracle200 initState 1 reqHi
    200 "cached-answer" (by decide) hok

/-- C7, counterexample: the primary call answers 500, every committee
attempt fails (status 500), so the winning attempt's status is 500 —
yet the caller receives status 200: the committee path is NOT a
status passthrough. -/
theorem C7_counterexample :
    (oracle500 "llama").outcome = Except.ok (500, "fail-body")
    ∧ (500 : Nat) ≠ 200
    ∧ (handle_chat cfgLlama oracle500 initState 1 reqHi).1 =
        (200, "fail-body") := by
  refine ⟨rfl, by decide, ?_⟩
  have hok : (oracle500 (primaryProvider cfgLlama initState 1
      reqHi)).outcome = Except.ok (500, "fail-body") := by
    rw [primary_cfgLlama 1 (by norm_num)]
    rfl
  rw [handle_chat_ok_escalate cfgLlama oracle500 initState 1 reqHi 500
    "fail-body" (by decide) hok (Or.inl (by decide))]
  simp only [escCommittee, pdAfterPrimary, primary_cfgLlama 1 (by norm_num)]
  decide

/-- C7, amended: the response is a passthrough of the primary
provider's status/body only on the non-escalated path (where the status
is necessarily 200); whenever the committee path is taken the status
sent to the caller is the literal 200 regardless of the winning
attempt's status (only the body is the winner's); consequently every
adaptive response carries status 200 or 500, never any other provider
status. -/
theorem C7_passthrough_status :
    (∀ (oracle : String → CallResult) (pd : PerfData) (now : ℚ)
        (members : List String),
        (committee oracle pd now members).1.1 = 200)
    ∧ (∀ (cfg : Config) (oracle : String → CallResult) (st : SysState)
        (now : ℚ) (req : Request) (out : String),
        cache_lookup st.cache (reqFingerprint cfg req) now = none →
        (oracle (primaryProvider cfg st now req)).outcome =
          Except.ok (200, out) →
        is_sensitive cfg.sensitive_tasks req.task_id
          (prompt_of req.messages) = false →
        (handle_chat cfg oracle st now req).1 = (200, out))
    ∧ (∀ (cfg : Config) (oracle : String → CallResult) (st : SysState)
        (now : ℚ) (req : Request),
        (handle_chat cfg oracle st now req).1.1 = 200 ∨
          (handle_chat cfg oracle st now req).1.1 = 500) :=
  ⟨fun oracle pd now members => committee_code oracle pd now members,
    fun cfg oracle st now req out hm ho hs => by
      rw [handle_chat_ok_pass cfg oracle st now req out hm ho hs],
    fun cfg oracle st now req => handle_chat_status cfg oracle st now req⟩

/-- C7, witness: a successful non-sensitive request passes the primary
body through with status 200. -/
theorem C7_witness :
    cache_lookup initState.cache (reqFingerprint cfgLlama reqHi) 1 = none
    ∧ is_sensitive cfgLlama.sensitive_tasks reqHi.task_id
        (prompt_of reqHi.messages) = false
    ∧ (handle_chat cfgLlama oracle200 initState 1 reqHi).1 =
        (200, "cached-answer") := by
  refine ⟨by decide, by decide, ?_⟩
  have hok : (oracle200 (primaryProvider cfgLlama initState 1
      reqHi)).outcome = Except.ok (200, "cached-answer") := by
    rw [primary_cfgLlama 1 (by norm_num)]
    rfl
  exact C7_passthrough_status.2.1 cfgLlama oracle200 initState 1 reqHi
    "cached-answer" (by decide) hok (by decide)

/-- C9 (confirmed): whenever a sensitive marker occurs as a substring
of the task identifier concatenated (without separator) with the
prompt, the adaptive path escalates to `committee` over all currently
available providers and replaces the outgoing response even though the
primary call returned status 200; and there is a cross-boundary pair —
task id "se", prompt "cret plans", marker "secret" — where neither
part alone contains the marker but the concatenation does, and the
successful primary body "llama-body" is replaced by the committee
winner "mistral-body". -/
theorem C9_sensitive_escalation :
    (∀ (cfg : Config) (oracle : String → CallResult) (st : SysState)
        (now : ℚ) (req : Request) (out : String),
        cache_lookup st.cache (reqFingerprint cfg req) now = none →
        (oracle (primaryProvider cfg st now req)).outcome =
          Except.ok (200, out) →
        is_sensitive cfg.sensitive_tasks req.task_id
          (prompt_of req.messages) = true →
        handle_chat cfg oracle st now req =
          ((escCommittee cfg oracle st now req 200).1,
            ⟨(escCommittee cfg oracle st now req 200).2.1,
              alistPut st.cache (reqFingerprint cfg req) (out, now),
              st.calls ++ primaryProvider cfg st now req ::
                (escCommittee cfg oracle st now req 200).2.2⟩))
    ∧ (containsSub "se" "secret" = false
        ∧ containsSub "cret plans" "secret" = false
        ∧ is_sensitive ["secret"] "se" "cret plans" = true)
    ∧ ((oracle9 "llama").outcome = Except.ok (200, "llama-body")
        ∧ (handle_chat cfg9 oracle9 initState 1 req9).1 =
            (200, "mistral-body")) := by
  refine ⟨fun cfg oracle st now req out hm ho hs =>
      handle_chat_ok_escalate cfg oracle st now req 200 out hm ho
        (Or.inr hs),
    ⟨by decide, by decide, by decide⟩, rfl, ?_⟩
  have hok : (oracle9 (primaryProvider cfg9 initState 1 req9)).outcome =
      Except.ok (200, "llama-body") := by
    rw [primary_cfg9]
    rfl
  rw [handle_chat_ok_escalate cfg9 oracle9 initState 1 req9 200
    "llama-body" (by decide) hok (Or.inr (by decide))]
  simp only [escCommittee, pdAfterPrimary, primary_cfg9]
  decide

/-- C9, witness: the sensitive cross-boundary request is escalated and
its successful primary response replaced by the committee winner. -/
theorem C9_witness :
    cache_lookup initState.cache (reqFingerprint cfg9 req9) 1 = none
    ∧ is_sensitive cfg9.sensitive_tasks req9.task_id
        (prompt_of req9.messages) = true
    ∧ (handle_chat cfg9 oracle9 initState 1 req9).2.calls =
        ["llama", "mistral", "llama"] := by
  refine ⟨by decide, by decide, ?_⟩
  have hok : (oracle9 (primaryProvider cfg9 initState 1 req9)).outcome =
      Except.ok (200, "llama-body") := by
    rw [primary_cfg9]
    rfl
  have h := C9_sensitive_escalation.1 cfg9 oracle9 initState 1 req9
    "llama-body" (by decide) hok (by decide)
  rw [h]
  simp only [escCommittee, pdAfterPrimary, primary_cfg9]
  decide

/-- C10 (confirmed): the fingerprint depends only on the task category
and the first 500 characters of the prompt; a cache lookup returns an
entry only while its age is under the TTL; and after a first successful
non-sensitive request is answered and cached at time `t1`, any second
request with the same prompt arriving at `t2` with `t2 - t1 < 3600`
returns the first's cached body with NO adapter invocation and NO state
change. -/
theorem C10_dedup_cache :
    (∀ (cat p1 p2 : String), take500 p1 = take500 p2 →
        task_fingerprint p1 cat = task_fingerprint p2 cat)
    ∧ (∀ (cache : List (String × (String × ℚ))) (fp : String)
        (t : ℚ) (r : String), cache_lookup cache fp t = some r →
        ∃ ts, alistGet cache fp = some (r, ts) ∧ t - ts < CACHE_TTL)
    ∧ (∀ (cfg : Config) (oracle : String → CallResult) (st : SysState)
        (t1 : ℚ) (req : Request) (out : String),
        cache_lookup st.cache (reqFingerprint cfg req) t1 = none →
        (oracle (primaryProvider cfg st t1 req)).outcome =
          Except.ok (200, out) →
        is_sensitive cfg.sensitive_tasks req.task_id
          (prompt_of req.messages) = false →
        handle_chat cfg oracle st t1 req =
          ((200, out),
            ⟨pdAfterPrimary cfg oracle st t1 req 200,
              alistPut st.cache (reqFingerprint cfg req) (out, t1),
              st.calls ++ [primaryProvider cfg st t1 req]⟩)
        ∧ (∀ (t2 : ℚ) (req2 : Request),
            prompt_of req2.messages = prompt_of req.messages →
            t2 - t1 < CACHE_TTL →
            handle_chat cfg oracle
              ⟨pdAfterPrimary cfg oracle st t1 req 200,
                alistPut st.cache (reqFingerprint cfg req) (out, t1),
                st.calls ++ [primaryProvider cfg st t1 req]⟩ t2 req2 =
              ((200, out),
                ⟨pdAfterPrimary cfg oracle st t1 req 200,
                  alistPut st.cache (reqFingerprint cfg req) (out, t1),
                  st.calls ++ [primaryProvider cfg st t1 req]⟩))) := by
  refine ⟨?_, fun cache fp t r h => cache_lookup_fresh cache fp t r h, ?_⟩
  · intro cat p1 p2 h
    rw [task_fingerprint, task_fingerprint, h]
  · intro cfg oracle st t1 req out hm ho hs
    refine ⟨handle_chat_ok_pass cfg oracle st t1 req out hm ho hs, ?_⟩
    intro t2 req2 hpr httl
    have hhit : cache_lookup (alistPut st.cache (reqFingerprint cfg req)
        (out, t1)) (reqFingerprint cfg req2) t2 = some out := by
      rw [reqFingerprint_congr cfg req req2 hpr, cache_lookup,
        alistGet_put_self]
      simp [httl]
    exact handle_chat_hit cfg oracle _ t2 req2 out hhit

/-- C10, witness: the first request at t = 10 answers and caches
"cached-answer"; the identical request at t = 20 (within the TTL)
returns the cached body with the state — including the adapter-call
log — unchanged. -/
theorem C10_witness :
    cache_lookup initState.cache (reqFingerprint cfgLlama reqHi) 10 = none
    ∧ (handle_chat cfgLlama oracle200 initState 10 reqHi).1 =
        (200, "cached-answer")
    ∧ handle_chat cfgLlama oracle200
        (handle_chat cfgLlama oracle200 initState 10 reqHi).2 20 reqHi =
        ((200, "cached-answer"),
          (handle_chat cfgLlama oracle200 initState 10 reqHi).2) := by
  have hok : (oracle200 (primaryProvider cfgLlama initState 10
      reqHi)).outcome = Except.ok (200, "cached-answer") := by
    rw [primary_cfgLlama 10 (by norm_num)]
    rfl
  have h := C10_dedup_cache.2.2 cfgLlama oracle200 initState 10 reqHi
    "cached-answer" (by decide) hok (by decide)
  refine ⟨by decide, ?_, ?_⟩
  · rw [h.1]
  · have h2 := h.2 20 reqHi rfl (by norm_num [CACHE_TTL])
    rw [h.1]
    exact h2

end Bridge
